import Mathlib

/-!
Shallow embedding of `crates/turbopack/src/analyzer/well_known.rs`, the
well-known value resolver of the turbopack static analyzer, together with
proofs about its behaviour.

The value lattice (`JsValue`, `ConstantValue`, the well-known kind
enumerations and the `call`/`member`/`concat`/`alternatives` constructors)
is defined in the analyzer module outside the embedded file; it is modelled
here from the specification's data model.  The resolver functions
themselves are translated directly from `well_known.rs`.  The Rust
`path_join` contains an `unwrap()` that can panic, so the embedded
`path_join` (and everything reaching it) returns an `Option`, with `none`
marking the panic.
-/

/-- Modelled from the spec: the well-known function catalog
(`WellKnownFunctionKind` lives in the analyzer module, outside the embedded
file).  The spec lists exactly these kinds: `PathJoin`, `PathDirname`,
`PathToFileUrl`, `Require`, `RequireResolve`, `Import`, per-method
`FsReadMethod`, `ChildProcessSpawnMethod`, `ChildProcessFork`. -/
inductive WellKnownFunctionKind where
  | PathJoin
  | PathDirname
  | PathToFileUrl
  | Import
  | Require
  | RequireResolve
  | FsReadMethod (name : String)
  | ChildProcessSpawnMethod (name : String)
  | ChildProcessFork
deriving DecidableEq

/-- Modelled from the spec: the well-known object catalog
(`WellKnownObjectKind`, outside the embedded file): `PathModule`,
`FsModule`, `UrlModule`, `ChildProcess`. -/
inductive WellKnownObjectKind where
  | PathModule
  | FsModule
  | UrlModule
  | ChildProcess
deriving DecidableEq

/-- Modelled from the spec: a literal scalar (string, number, boolean).
Only the `Str` variant is consumed by the embedded resolver; the numeric
payload is modelled as `Int`. -/
inductive ConstantValue where
  | Str (s : String)
  | Num (n : Int)
  | Bool (b : Bool)
deriving DecidableEq

/-- Modelled from the spec: the symbolic value lattice (`JsValue`, outside
the embedded file).  Node-count bookkeeping carried in the first field of
the Rust `Call`/`Member`/`Concat` variants is metadata ignored by every
match in the embedded file and is dropped here.  `Url` carries the parsed
URL, modelled as its string rendering. -/
inductive JsValue where
  | Constant (v : ConstantValue)
  | Concat (parts : List JsValue)
  | Alternatives (values : List JsValue)
  | Call (callee : JsValue) (args : List JsValue)
  | Member (obj : JsValue) (prop : JsValue)
  | WellKnownFunction (kind : WellKnownFunctionKind)
  | WellKnownObject (kind : WellKnownObjectKind)
  | Module (name : String)
  | Url (url : String)
  | Unknown (origin : Option JsValue) (reason : String)

/-- Modelled from the spec: `JsValue::as_str` — the exact string of a
literal string value, `None` for every other variant. -/
def JsValue.as_str : JsValue → Option String
  | .Constant (.Str s) => some s
  | _ => none

/-- Modelled from the spec: `JsValue::as_word` — the interned word of a
literal string value; same success cases as `as_str`. -/
def JsValue.as_word : JsValue → Option String
  | .Constant (.Str s) => some s
  | _ => none

/-- Modelled from the spec: the `JsValue::call` constructor, an owned
snapshot of a call node (kind marker plus argument list). -/
def JsValue.call (callee : JsValue) (args : List JsValue) : JsValue :=
  .Call callee args

/-- Modelled from the spec: the `JsValue::member` constructor, an owned
snapshot of a member-access node. -/
def JsValue.member (obj : JsValue) (prop : JsValue) : JsValue :=
  .Member obj prop

/-- Modelled from the spec: the `JsValue::concat` constructor — the parts
are concatenated into one `Concat` node. -/
def JsValue.concat (parts : List JsValue) : JsValue :=
  .Concat parts

/-- Modelled from the spec: the `JsValue::alternatives` constructor — a
sound disjunction of the possible values. -/
def JsValue.alternatives (values : List JsValue) : JsValue :=
  .Alternatives values

/-- The Rust `"s".into()`: a literal string value. -/
def strVal (s : String) : JsValue :=
  .Constant (.Str s)

/-- Helper for `str.split("/")` (Rust semantics: empty fragments from
leading/trailing/double slashes are preserved; splitting the empty string
yields one empty fragment). -/
def splitSlashAux : List Char → List Char → List String
  | [], acc => [String.mk acc.reverse]
  | c :: rest, acc =>
    if c = '/' then String.mk acc.reverse :: splitSlashAux rest []
    else splitSlashAux rest (c :: acc)

/-- Embeds `str.split("/")` from the Rust standard library. -/
def splitSlash (s : String) : List String :=
  splitSlashAux s.data []

/-- Joins fragments back with `"/"`; inverse direction of `splitSlash`,
used to express `str[..i]` for `i` the byte index of the last slash. -/
def joinSlash : List String → String
  | [] => ""
  | [s] => s
  | s :: rest => s ++ "/" ++ joinSlash rest

/-- Embeds `str.rfind("/")` followed by the slice `str[..i]`: the portion
of `s` strictly before its last `'/'`, or `none` when `s` has no slash. -/
def beforeLastSlash (s : String) : Option String :=
  match splitSlash s with
  | [] => none
  | [_] => none
  | parts => some (joinSlash parts.dropLast)

/-- Modelled from the spec: the external `url` crate's
`Url::from_file_path`, which succeeds exactly on absolute paths (the spec
only distinguishes "conversion succeeded" from "parse failure"); modelled
as prefixing the `file://` scheme onto an absolute path. -/
def urlFromFilePath (path : String) : Option String :=
  if path.startsWith "/" then some ("file://" ++ path) else none

/-- `path_join` flattening step: a literal-string argument is split on
`"/"` into its component segments, a non-literal argument is kept as a
single opaque part. -/
def flattenParts : List JsValue → List JsValue
  | [] => []
  | item :: rest =>
    (match item.as_str with
     | some s => (splitSlash s).map strVal
     | none => [item]) ++ flattenParts rest

/-- `path_join` normalization loop over the flattened parts, with
accumulators `rf` (the Rust `results_final`) and `rs` (the Rust `results`
stack, stored here top-first, so Rust `Vec::push`/`Vec::pop` become cons
and head-match and `extend(results.drain(..))` appends `rs.reverse`).
Returns `results_final` after the trailing flush. -/
def normalizeParts : List JsValue → List JsValue → List JsValue → List JsValue
  | [], rf, rs => rf ++ rs.reverse
  | item :: rest, rf, rs =>
    match item.as_str with
    | some s =>
      if s = "" ∨ s = "." then
        if rf.isEmpty && rs.isEmpty then normalizeParts rest (rf ++ [item]) rs
        else normalizeParts rest rf rs
      else if s = ".." then
        match rs with
        | [] => normalizeParts rest (rf ++ [item]) []
        | _ :: rs' => normalizeParts rest rf rs'
      else normalizeParts rest rf (item :: rs)
    | none => normalizeParts rest (rf ++ rs.reverse ++ [item]) []

/-- `path_join` reassembly step over the elements after the first:
consecutive literal neighbours are joined by a literal `"/"`, any pair with
a non-literal neighbour by `Alternatives(["/", ""])`.  `lastIsStr` records
whether the previous element was a literal string. -/
def reassembleAux (lastIsStr : Bool) : List JsValue → List JsValue
  | [] => []
  | part :: rest =>
    let isStr := part.as_str.isSome
    (if lastIsStr && isStr then strVal "/"
     else JsValue.alternatives [strVal "/", strVal ""]) ::
      part :: reassembleAux isStr rest

/-- Embeds `path_join` from `well_known.rs`.  The Rust code ends with
`iter.next().unwrap()` on the normalized segment list; when that list is
empty (all literal segments cancelled) the Rust code panics, modelled here
as `none`. -/
def path_join (args : List JsValue) : Option JsValue :=
  if args.isEmpty then some (strVal ".")
  else
    match normalizeParts (flattenParts args) [] [] with
    | [] => none
    | first :: rest =>
      some (JsValue.concat (first :: reassembleAux first.as_str.isSome rest))

/-- Embeds the early-return portion of `path_dirname` from
`well_known.rs`: `some` is a `return`, `none` is the fall-through to the
trailing `Unknown`. -/
def path_dirname_hit : List JsValue → Option JsValue
  | [] => none
  | arg :: _ =>
    match arg.as_str with
    | some str =>
      match beforeLastSlash str with
      | some pre => some (.Constant (.Str pre))
      | none => some (.Constant (.Str ""))
    | none =>
      match arg with
      | .Concat items =>
        match items.getLast? with
        | some lastv =>
          match lastv.as_str with
          | some str =>
            match beforeLastSlash str with
            | some pre => some (.Concat (items.dropLast ++ [.Constant (.Str pre)]))
            | none => none
          | none => none
        | none => none
      | _ => none

/-- Embeds `path_dirname` from `well_known.rs`. -/
def path_dirname (args : List JsValue) : JsValue :=
  match path_dirname_hit args with
  | some v => v
  | none =>
    .Unknown
      (some (JsValue.call (.WellKnownFunction .PathDirname) args))
      "path.dirname with unsupported arguments"

/-- Embeds `require` from `well_known.rs`: one literal-string argument
becomes `Module`; one non-literal argument and any other arity become
`Unknown` wrapping the reconstructed call, with distinct reasons. -/
def require : List JsValue → JsValue
  | [JsValue.Constant (ConstantValue.Str s)] => .Module s
  | [a] =>
    .Unknown
      (some (JsValue.call (.WellKnownFunction .Require) [a]))
      "only constant argument is supported"
  | args =>
    .Unknown
      (some (JsValue.call (.WellKnownFunction .Require) args))
      "only a single argument is supported"

/-- Embeds `path_to_file_url` from `well_known.rs`. -/
def path_to_file_url (args : List JsValue) : JsValue :=
  match args with
  | [JsValue.Constant (ConstantValue.Str path)] =>
    match urlFromFilePath path with
    | some url => .Url url
    | none =>
      .Unknown
        (some (JsValue.call (.WellKnownFunction .PathToFileUrl) args))
        "url not parseable"
  | [_] =>
    .Unknown
      (some (JsValue.call (.WellKnownFunction .PathToFileUrl) args))
      "only constant argument is supported"
  | _ =>
    .Unknown
      (some (JsValue.call (.WellKnownFunction .PathToFileUrl) args))
      "only a single argument is supported"

/-- Embeds `well_known_function_call` from `well_known.rs`; `Option`
because `path_join` can panic. -/
def well_known_function_call (kind : WellKnownFunctionKind) (_this : JsValue)
    (args : List JsValue) : Option JsValue :=
  match kind with
  | .PathJoin => path_join args
  | .PathDirname => some (path_dirname args)
  | .Import =>
    some (.Unknown
      (some (JsValue.call (.WellKnownFunction kind) args))
      "import() is not supported")
  | .Require => some (require args)
  | .RequireResolve =>
    some (.Unknown
      (some (JsValue.call (.WellKnownFunction kind) args))
      "require.resolve() is not supported")
  | .PathToFileUrl => some (path_to_file_url args)
  | kind =>
    some (.Unknown
      (some (JsValue.call (.WellKnownFunction kind) args))
      "unsupported function")

/-- Embeds `well_known_function_member` from `well_known.rs`. -/
def well_known_function_member (kind : WellKnownFunctionKind)
    (prop : JsValue) : JsValue :=
  match kind, prop.as_str with
  | .Require, some "resolve" => .WellKnownFunction .RequireResolve
  | kind, _ =>
    .Unknown
      (some (JsValue.member (.WellKnownFunction kind) prop))
      "unsupported property on function"

/-- Embeds `path_module_member` from `well_known.rs`. -/
def path_module_member (prop : JsValue) : JsValue :=
  match prop.as_str with
  | some "join" => .WellKnownFunction .PathJoin
  | some "dirname" => .WellKnownFunction .PathDirname
  | _ =>
    .Unknown
      (some (JsValue.member (.WellKnownObject .PathModule) prop))
      "unsupported property on Node.js path module"

/-- The fs read-style method names recognized by `fs_module_member`. -/
def fs_read_methods : List String :=
  ["realpath", "realpathSync", "stat", "statSync", "existsSync",
   "createReadStream", "exists", "open", "openSync", "readFile",
   "readFileSync"]

/-- Embeds the early-return portion of `fs_module_member` from
`well_known.rs` (`none` is the fall-through to the trailing `Unknown`). -/
def fs_module_member_hit (prop : JsValue) : Option JsValue :=
  match prop.as_word with
  | some word =>
    if fs_read_methods.contains word then
      some (.WellKnownFunction (.FsReadMethod word))
    else if word = "promises" then
      some (.WellKnownObject .FsModule)
    else none
  | none => none

/-- Embeds `fs_module_member` from `well_known.rs`. -/
def fs_module_member (prop : JsValue) : JsValue :=
  match fs_module_member_hit prop with
  | some v => v
  | none =>
    .Unknown
      (some (JsValue.member (.WellKnownObject .FsModule) prop))
      "unsupported property on Node.js fs module"

/-- Embeds `url_module_member` from `well_known.rs`. -/
def url_module_member (prop : JsValue) : JsValue :=
  match prop.as_str with
  | some "pathToFileURL" => .WellKnownFunction .PathToFileUrl
  | _ =>
    .Unknown
      (some (JsValue.member (.WellKnownObject .UrlModule) prop))
      "unsupported property on Node.js url module"

/-- Embeds `child_process_module_member` from `well_known.rs`; the Rust
`prop.as_word().unwrap()` cannot fail there because `prop.as_str()` has
just matched, so the word is the matched string itself. -/
def child_process_module_member (prop : JsValue) : JsValue :=
  match prop.as_str with
  | some "spawn" => .WellKnownFunction (.ChildProcessSpawnMethod "spawn")
  | some "spawnSync" => .WellKnownFunction (.ChildProcessSpawnMethod "spawnSync")
  | some "execFile" => .WellKnownFunction (.ChildProcessSpawnMethod "execFile")
  | some "execFileSync" =>
    .WellKnownFunction (.ChildProcessSpawnMethod "execFileSync")
  | some "fork" => .WellKnownFunction .ChildProcessFork
  | _ =>
    .Unknown
      (some (JsValue.member (.WellKnownObject .ChildProcess) prop))
      "unsupported property on Node.js child_process module"

/-- Embeds `well_known_object_member` from `well_known.rs`; the Rust
default arm is marked `unreachable_patterns` and the four object kinds are
exhaustive here. -/
def well_known_object_member (kind : WellKnownObjectKind)
    (prop : JsValue) : JsValue :=
  match kind with
  | .PathModule => path_module_member prop
  | .FsModule => fs_module_member prop
  | .UrlModule => url_module_member prop
  | .ChildProcess => child_process_module_member prop

/-- Embeds `replace_well_known` from `well_known.rs`; `Option` because the
`PathJoin` handler can panic. -/
def replace_well_known : JsValue → Option (JsValue × Bool)
  | .Call (.WellKnownFunction kind) args =>
    (well_known_function_call kind
        (.Unknown none "this is not analysed yet") args).map
      (fun v => (v, true))
  | .Member (.WellKnownObject kind) prop =>
    some (well_known_object_member kind prop, true)
  | .Member (.WellKnownFunction kind) prop =>
    some (well_known_function_member kind prop, true)
  | value => some (value, false)

/-- The runtime string denoted by a list of parts that are all literal
strings (used to state the spec's `path_join` examples, which describe the
joined string). -/
def literalParts : List JsValue → Option String
  | [] => some ""
  | .Constant (.Str s) :: rest => (literalParts rest).map (s ++ ·)
  | _ => none

/-- The runtime string denoted by a value, defined when the value is a
literal string or a concatenation of literal strings (spec: `Concat` is
runtime string concatenation of its parts, left to right). -/
def literalString : JsValue → Option String
  | .Constant (.Str s) => some s
  | .Concat parts => literalParts parts
  | _ => none

/-- A value whose top-level shape is not rewritten by
`replace_well_known`: not a call on a well-known function and not a member
access on a well-known object/function. -/
def is_resolved : JsValue → Bool
  | .Call (.WellKnownFunction _) _ => false
  | .Member (.WellKnownObject _) _ => false
  | .Member (.WellKnownFunction _) _ => false
  | _ => true

@[simp] theorem is_resolved_Constant (c : ConstantValue) :
    is_resolved (.Constant c) = true := rfl

@[simp] theorem is_resolved_Concat (l : List JsValue) :
    is_resolved (.Concat l) = true := rfl

@[simp] theorem is_resolved_Alternatives (l : List JsValue) :
    is_resolved (.Alternatives l) = true := rfl

@[simp] theorem is_resolved_WellKnownFunction (k : WellKnownFunctionKind) :
    is_resolved (.WellKnownFunction k) = true := rfl

@[simp] theorem is_resolved_WellKnownObject (k : WellKnownObjectKind) :
    is_resolved (.WellKnownObject k) = true := rfl

@[simp] theorem is_resolved_Module (n : String) :
    is_resolved (.Module n) = true := rfl

@[simp] theorem is_resolved_Url (u : String) :
    is_resolved (.Url u) = true := rfl

@[simp] theorem is_resolved_Unknown (o : Option JsValue) (r : String) :
    is_resolved (.Unknown o r) = true := rfl

theorem path_join_resolved (args : List JsValue) (r : JsValue)
    (h : path_join args = some r) : is_resolved r = true := by
  unfold path_join at h
  split at h
  · cases h; rfl
  · split at h
    · cases h
    · cases h; rfl

theorem path_dirname_hit_resolved (args : List JsValue) (v : JsValue)
    (h : path_dirname_hit args = some v) : is_resolved v = true := by
  unfold path_dirname_hit at h
  repeat' split at h
  all_goals cases h
  all_goals rfl

theorem path_dirname_resolved (args : List JsValue) :
    is_resolved (path_dirname args) = true := by
  unfold path_dirname
  split
  · exact path_dirname_hit_resolved args _ (by assumption)
  · rfl

theorem require_resolved (args : List JsValue) :
    is_resolved (require args) = true := by
  unfold require
  repeat' split
  all_goals rfl

theorem path_to_file_url_resolved (args : List JsValue) :
    is_resolved (path_to_file_url args) = true := by
  unfold path_to_file_url
  repeat' split
  all_goals rfl

theorem well_known_function_call_resolved (kind : WellKnownFunctionKind)
    (t : JsValue) (args : List JsValue) (r : JsValue)
    (h : well_known_function_call kind t args = some r) :
    is_resolved r = true := by
  cases kind with
  | PathJoin =>
    exact path_join_resolved args r (by simpa [well_known_function_call] using h)
  | PathDirname =>
    simp only [well_known_function_call, Option.some.injEq] at h
    exact h ▸ path_dirname_resolved args
  | Require =>
    simp only [well_known_function_call, Option.some.injEq] at h
    exact h ▸ require_resolved args
  | PathToFileUrl =>
    simp only [well_known_function_call, Option.some.injEq] at h
    exact h ▸ path_to_file_url_resolved args
  | Import => cases h; rfl
  | RequireResolve => cases h; rfl
  | FsReadMethod name => cases h; rfl
  | ChildProcessSpawnMethod name => cases h; rfl
  | ChildProcessFork => cases h; rfl

theorem well_known_function_member_resolved (kind : WellKnownFunctionKind)
    (prop : JsValue) : is_resolved (well_known_function_member kind prop) = true := by
  unfold well_known_function_member
  repeat' split
  all_goals rfl

theorem path_module_member_resolved (prop : JsValue) :
    is_resolved (path_module_member prop) = true := by
  unfold path_module_member
  repeat' split
  all_goals rfl

theorem fs_module_member_hit_resolved (prop : JsValue) (v : JsValue)
    (h : fs_module_member_hit prop = some v) : is_resolved v = true := by
  unfold fs_module_member_hit at h
  repeat' split at h
  all_goals cases h
  all_goals rfl

theorem fs_module_member_resolved (prop : JsValue) :
    is_resolved (fs_module_member prop) = true := by
  unfold fs_module_member
  split
  · exact fs_module_member_hit_resolved prop _ (by assumption)
  · rfl

theorem url_module_member_resolved (prop : JsValue) :
    is_resolved (url_module_member prop) = true := by
  unfold url_module_member
  repeat' split
  all_goals rfl

theorem child_process_module_member_resolved (prop : JsValue) :
    is_resolved (child_process_module_member prop) = true := by
  unfold child_process_module_member
  repeat' split
  all_goals rfl

theorem well_known_object_member_resolved (kind : WellKnownObjectKind)
    (prop : JsValue) : is_resolved (well_known_object_member kind prop) = true := by
  cases kind with
  | PathModule => exact path_module_member_resolved prop
  | FsModule => exact fs_module_member_resolved prop
  | UrlModule => exact url_module_member_resolved prop
  | ChildProcess => exact child_process_module_member_resolved prop

theorem replace_well_known_of_resolved (v : JsValue)
    (h : is_resolved v = true) : replace_well_known v = some (v, false) := by
  cases v with
  | Call callee args =>
    cases callee <;> first | rfl | (simp [is_resolved] at h)
  | Member obj prop =>
    cases obj <;> first | rfl | (simp [is_resolved] at h)
  | _ => rfl

theorem replace_well_known_result_resolved (v v' : JsValue) (c : Bool)
    (h : replace_well_known v = some (v', c)) : is_resolved v' = true := by
  cases v with
  | Call callee args =>
    cases callee with
    | WellKnownFunction kind =>
      simp only [replace_well_known] at h
      cases hc : well_known_function_call kind
          (JsValue.Unknown none "this is not analysed yet") args with
      | none => rw [hc] at h; cases h
      | some r =>
        rw [hc, Option.map_some'] at h
        cases h
        exact well_known_function_call_resolved kind _ args _ hc
    | _ =>
      simp only [replace_well_known] at h
      cases h
      rfl
  | Member obj prop =>
    cases obj with
    | WellKnownObject kind =>
      simp only [replace_well_known] at h
      cases h
      exact well_known_object_member_resolved kind prop
    | WellKnownFunction kind =>
      simp only [replace_well_known] at h
      cases h
      exact well_known_function_member_resolved kind prop
    | _ =>
      simp only [replace_well_known] at h
      cases h
      rfl
  | Constant c => cases h; rfl
  | Concat l => cases h; rfl
  | Alternatives l => cases h; rfl
  | WellKnownFunction k => cases h; rfl
  | WellKnownObject k => cases h; rfl
  | Module n => cases h; rfl
  | Url u => cases h; rfl
  | Unknown o r => cases h; rfl

example : splitSlash "a/b" = ["a", "b"] := by decide
example : splitSlash "" = [""] := by decide
example : splitSlash "/" = ["", ""] := by decide
example : beforeLastSlash "a/b/c" = some "a/b" := by decide
example : beforeLastSlash "a" = none := by decide
example : beforeLastSlash "/" = some "" := by decide
example : beforeLastSlash "a/" = some "a" := by decide

/-- C1: `require` on a single literal-string argument yields `Module` of
that string; on a single non-literal argument it yields `Unknown` wrapping
the reconstructed call with reason "only constant argument is supported";
on any other arity it yields `Unknown` wrapping the reconstructed call
with the distinct reason "only a single argument is supported". -/
theorem require_resolution (args : List JsValue) :
    (∀ s, args = [JsValue.Constant (ConstantValue.Str s)] →
      require args = .Module s) ∧
    (∀ a, args = [a] → a.as_str = none →
      require args =
        .Unknown (some (JsValue.call (.WellKnownFunction .Require) args))
          "only constant argument is supported") ∧
    (args.length ≠ 1 →
      require args =
        .Unknown (some (JsValue.call (.WellKnownFunction .Require) args))
          "only a single argument is supported") := by
  refine ⟨fun s hs => by rw [hs]; rfl, fun a ha hstr => ?_, fun hlen => ?_⟩
  · subst ha
    cases a with
    | Constant cv =>
      cases cv with
      | Str s => simp [JsValue.as_str] at hstr
      | Num n => rfl
      | Bool b => rfl
    | _ => rfl
  · cases args with
    | nil => rfl
    | cons a t =>
      cases t with
      | nil => simp at hlen
      | cons b t' =>
        cases a with
        | Constant cv => cases cv <;> rfl
        | _ => rfl

/-- Witness for C1: `require("./x")`, `require(X)` for a non-literal `X`,
and a two-argument `require`, evaluated concretely. -/
theorem require_resolution_witness :
    require [strVal "./x"] = .Module "./x" ∧
    require [JsValue.Unknown none "x"] =
      .Unknown (some (JsValue.call (.WellKnownFunction .Require)
        [JsValue.Unknown none "x"])) "only constant argument is supported" ∧
    require [strVal "a", strVal "b"] =
      .Unknown (some (JsValue.call (.WellKnownFunction .Require)
        [strVal "a", strVal "b"])) "only a single argument is supported" :=
  ⟨(require_resolution [strVal "./x"]).1 "./x" rfl,
   (require_resolution [JsValue.Unknown none "x"]).2.1
     (JsValue.Unknown none "x") rfl rfl,
   (require_resolution [strVal "a", strVal "b"]).2.2 (by decide)⟩

/-- C2 (failing input): the well-known-call handlers are not total — a
`path.join` call whose literal segments cancel each other reaches the Rust
`iter.next().unwrap()` with an empty segment list and panics, modelled as
`none`. -/
theorem replace_well_known_join_cancel_panics :
    replace_well_known
      (.Call (.WellKnownFunction .PathJoin) [strVal "a", strVal ".."]) =
      none := rfl

/-- C3: whenever `replace_well_known` terminates with `(v', changed)`, a
second application returns `(v', false)`; in particular `Module`,
`Unknown` and `Constant` values are returned unchanged with
`changed = false`. -/
theorem replace_well_known_idempotent :
    (∀ v v' c, replace_well_known v = some (v', c) →
      replace_well_known v' = some (v', false)) ∧
    (∀ n, replace_well_known (.Module n) = some (.Module n, false)) ∧
    (∀ o r, replace_well_known (.Unknown o r) = some (.Unknown o r, false)) ∧
    (∀ cv, replace_well_known (.Constant cv) = some (.Constant cv, false)) := by
  refine ⟨fun v v' c h => ?_, fun n => rfl, fun o r => rfl, fun cv => rfl⟩
  exact replace_well_known_of_resolved v'
    (replace_well_known_result_resolved v v' c h)

/-- Witness for C3: re-resolving the already-resolved result of a
`require` call reports `changed = false`. -/
theorem replace_well_known_idempotent_witness :
    replace_well_known (.Module "./x") = some (.Module "./x", false) :=
  (replace_well_known_idempotent.1
    (.Call (.WellKnownFunction .Require) [strVal "./x"]) (.Module "./x") true
    rfl)

/-- C8: calls on the `Import` and `RequireResolve` well-known functions
resolve to `Unknown` with their fixed reasons, wrapping the reconstructed
call, for every argument list. -/
theorem import_require_resolve_unsupported (t : JsValue)
    (args : List JsValue) :
    well_known_function_call .Import t args =
      some (.Unknown (some (JsValue.call (.WellKnownFunction .Import) args))
        "import() is not supported") ∧
    well_known_function_call .RequireResolve t args =
      some (.Unknown
        (some (JsValue.call (.WellKnownFunction .RequireResolve) args))
        "require.resolve() is not supported") :=
  ⟨rfl, rfl⟩

/-- C10: the well-known function kinds without a dedicated call handler
(`FsReadMethod`, `ChildProcessSpawnMethod`, `ChildProcessFork`) resolve
through `replace_well_known` to `Unknown` with reason "unsupported
function" wrapping the reconstructed call, and report `changed = true`. -/
theorem unsupported_kinds_call (name : String) (args : List JsValue) :
    replace_well_known
        (.Call (.WellKnownFunction (.FsReadMethod name)) args) =
      some (.Unknown
        (some (.Call (.WellKnownFunction (.FsReadMethod name)) args))
        "unsupported function", true) ∧
    replace_well_known
        (.Call (.WellKnownFunction (.ChildProcessSpawnMethod name)) args) =
      some (.Unknown
        (some (.Call (.WellKnownFunction (.ChildProcessSpawnMethod name)) args))
        "unsupported function", true) ∧
    replace_well_known
        (.Call (.WellKnownFunction .ChildProcessFork) args) =
      some (.Unknown
        (some (.Call (.WellKnownFunction .ChildProcessFork) args))
        "unsupported function", true) :=
  ⟨rfl, rfl, rfl⟩

/-- Counterexample for C4: `path_join([".", "a"])` is not the literal
string `"a"` — it is the concatenation `"." "/" "a"`, i.e. the string
`"./a"` (the leading `"."` is kept by the "both accumulators still empty"
rule). -/
theorem path_join_dot_a_counterexample :
    path_join [strVal ".", strVal "a"] =
      some (.Concat [strVal ".", strVal "/", strVal "a"]) ∧
    (path_join [strVal ".", strVal "a"]).bind literalString = some "./a" ∧
    path_join [strVal ".", strVal "a"] ≠ some (strVal "a") := by
  refine ⟨rfl, rfl, ?_⟩
  rw [show path_join [strVal ".", strVal "a"] =
      some (.Concat [strVal ".", strVal "/", strVal "a"]) from rfl]
  simp [strVal]

/-- C4 (amended): `path_join([".", "a"])` returns the concatenation of the
literals `"."`, `"/"`, `"a"` — the string `"./a"` — because the leading
`"."` is kept when both accumulators are still empty. -/
theorem path_join_dot_a_keeps_dot :
    path_join [strVal ".", strVal "a"] =
      some (.Concat [strVal ".", strVal "/", strVal "a"]) ∧
    (path_join [strVal ".", strVal "a"]).bind literalString = some "./a" :=
  ⟨rfl, rfl⟩

/-- C5: literal-only joins — the empty join is the literal `"."`;
`path_join(["a", "b"])` denotes `"a/b"`; `path_join(["a", "..", "b"])`
denotes `"b"`; `path_join(["..", "a"])` denotes `"../a"`. -/
theorem path_join_literal_examples :
    path_join [] = some (strVal ".") ∧
    path_join [strVal "a", strVal "b"] =
      some (.Concat [strVal "a", strVal "/", strVal "b"]) ∧
    (path_join [strVal "a", strVal "b"]).bind literalString = some "a/b" ∧
    path_join [strVal "a", strVal "..", strVal "b"] =
      some (.Concat [strVal "b"]) ∧
    (path_join [strVal "a", strVal "..", strVal "b"]).bind literalString =
      some "b" ∧
    path_join [strVal "..", strVal "a"] =
      some (.Concat [strVal "..", strVal "/", strVal "a"]) ∧
    (path_join [strVal "..", strVal "a"]).bind literalString = some "../a" :=
  ⟨rfl, rfl, rfl, rfl, rfl, rfl, rfl⟩

/-- Counterexample for C6: in `path_join([X, "..", "a"])` with opaque `X`,
the separator placed right after `X` is the `Alternatives` of `"/"` and
`""`, not a literal separator (the pair `".."`/`"a"` does get the literal
`"/"`). -/
theorem path_join_opaque_sep_counterexample :
    path_join [JsValue.Unknown none "X", strVal "..", strVal "a"] =
      some (.Concat [JsValue.Unknown none "X",
        .Alternatives [strVal "/", strVal ""],
        strVal "..", strVal "/", strVal "a"]) ∧
    (JsValue.Alternatives [strVal "/", strVal ""]).as_str = none ∧
    JsValue.Alternatives [strVal "/", strVal ""] ≠ strVal "/" := by
  refine ⟨rfl, rfl, ?_⟩
  simp [strVal]

/-- C6 (amended): for every non-literal `X`, `path_join([X, "..", "a"])`
does not cancel `X`: the result keeps `X`, then the literal `".."`, then
`"a"`; the separator after the opaque `X` is `Alternatives(["/", ""])` and
the separator between the two literals is the literal `"/"`. -/
theorem path_join_opaque_no_cancel (X : JsValue) (h : X.as_str = none) :
    path_join [X, strVal "..", strVal "a"] =
      some (.Concat [X, .Alternatives [strVal "/", strVal ""],
        strVal "..", strVal "/", strVal "a"]) := by
  have hf : flattenParts [X, strVal "..", strVal "a"] =
      [X, strVal "..", strVal "a"] := by
    simp only [flattenParts, h]
    rfl
  have hn : normalizeParts [X, strVal "..", strVal "a"] [] [] =
      [X, strVal "..", strVal "a"] := by
    simp only [normalizeParts, h]
    rfl
  have hr : reassembleAux X.as_str.isSome [strVal "..", strVal "a"] =
      [.Alternatives [strVal "/", strVal ""],
       strVal "..", strVal "/", strVal "a"] := by
    rw [h]
    rfl
  show path_join [X, strVal "..", strVal "a"] = _
  unfold path_join
  rw [hf, hn]
  show some (JsValue.concat
      (X :: reassembleAux X.as_str.isSome [strVal "..", strVal "a"])) = _
  rw [hr]
  rfl

/-- Witness for C6 (amended): evaluated at the opaque value
`Unknown(None, "opaque")`. -/
theorem path_join_opaque_no_cancel_witness :
    path_join [JsValue.Unknown none "opaque", strVal "..", strVal "a"] =
      some (.Concat [JsValue.Unknown none "opaque",
        .Alternatives [strVal "/", strVal ""],
        strVal "..", strVal "/", strVal "a"]) :=
  path_join_opaque_no_cancel (JsValue.Unknown none "opaque") rfl

/-- Counterexample for C7: for a `Concat` whose trailing literal contains
no `"/"` (here `Concat([Unknown, "abc"])`), `path_dirname` does not splice
the empty-string search result into the concat — it falls through to
`Unknown` wrapping the reconstructed `path.dirname` call. -/
theorem path_dirname_concat_counterexample :
    path_dirname [.Concat [JsValue.Unknown none "u", strVal "abc"]] =
      .Unknown (some (JsValue.call (.WellKnownFunction .PathDirname)
        [.Concat [JsValue.Unknown none "u", strVal "abc"]]))
        "path.dirname with unsupported arguments" ∧
    path_dirname [.Concat [JsValue.Unknown none "u", strVal "abc"]] ≠
      .Concat [JsValue.Unknown none "u", strVal ""] := by
  refine ⟨rfl, ?_⟩
  rw [show path_dirname [.Concat [JsValue.Unknown none "u", strVal "abc"]] =
      .Unknown (some (JsValue.call (.WellKnownFunction .PathDirname)
        [.Concat [JsValue.Unknown none "u", strVal "abc"]]))
        "path.dirname with unsupported arguments" from rfl]
  simp [strVal, JsValue.call]

/-- C7 (amended): `path_dirname` on a literal string returns the substring
before the last `"/"` (empty string when the literal has no slash); on a
`Concat` whose last part is a literal string containing a `"/"` it splices
the substring before that last slash in place of the trailing part; on a
`Concat` whose trailing literal has no `"/"` — and on every other argument
shape — it returns `Unknown` wrapping the reconstructed call. -/
theorem path_dirname_case_analysis :
    (∀ s, path_dirname [strVal s] =
      .Constant (.Str ((beforeLastSlash s).getD ""))) ∧
    (∀ items rest s pre, items.getLast? = some (strVal s) →
      beforeLastSlash s = some pre →
      path_dirname (.Concat items :: rest) =
        .Concat (items.dropLast ++ [strVal pre])) ∧
    (∀ items rest s, items.getLast? = some (strVal s) →
      beforeLastSlash s = none →
      path_dirname (.Concat items :: rest) =
        .Unknown (some (JsValue.call (.WellKnownFunction .PathDirname)
          (.Concat items :: rest)))
          "path.dirname with unsupported arguments") ∧
    (∀ args, path_dirname_hit args = none →
      path_dirname args =
        .Unknown (some (JsValue.call (.WellKnownFunction .PathDirname) args))
          "path.dirname with unsupported arguments") ∧
    path_dirname [strVal "a/b/c"] = .Constant (.Str "a/b") ∧
    path_dirname [strVal "a"] = .Constant (.Str "") := by
  refine ⟨fun s => ?_, fun items rest s pre hl hb => ?_,
    fun items rest s hl hb => ?_, fun args hn => ?_, rfl, rfl⟩
  · cases hb : beforeLastSlash s with
    | some pre =>
      simp [path_dirname, path_dirname_hit, strVal, JsValue.as_str, hb]
    | none =>
      simp [path_dirname, path_dirname_hit, strVal, JsValue.as_str, hb]
  · simp [path_dirname, path_dirname_hit, strVal, JsValue.as_str, hl, hb]
  · simp [path_dirname, path_dirname_hit, strVal, JsValue.as_str, hl, hb,
      JsValue.call]
  · simp [path_dirname, hn, JsValue.call]

/-- Witness for C7 (amended): dirname of `Concat([Unknown, "x/y"])`
splices `"x"` in place of the trailing literal. -/
theorem path_dirname_case_analysis_witness :
    path_dirname [.Concat [JsValue.Unknown none "u", strVal "x/y"]] =
      .Concat [JsValue.Unknown none "u", strVal "x"] := by
  have h := path_dirname_case_analysis.2.1
    [JsValue.Unknown none "u", strVal "x/y"] [] "x/y" "x" rfl rfl
  simpa using h

/-- Whether a property is in the `Require` member table (`resolve` is the
only entry; no other well-known function has one). -/
def function_member_table_hit (kind : WellKnownFunctionKind)
    (prop : JsValue) : Bool :=
  match kind with
  | .Require => prop.as_str == some "resolve"
  | _ => false

/-- Whether a property is in the member table of the given well-known
object (the names matched by `path_module_member`, `fs_module_member`,
`url_module_member` and `child_process_module_member`). -/
def object_member_table_hit (kind : WellKnownObjectKind)
    (prop : JsValue) : Bool :=
  match kind with
  | .PathModule =>
    prop.as_str == some "join" || prop.as_str == some "dirname"
  | .FsModule =>
    match prop.as_word with
    | some w => fs_read_methods.contains w || w == "promises"
    | none => false
  | .UrlModule => prop.as_str == some "pathToFileURL"
  | .ChildProcess =>
    match prop.as_str with
    | some s =>
      s == "spawn" || s == "spawnSync" || s == "execFile" ||
        s == "execFileSync" || s == "fork"
    | none => false

/-- Fallback reason produced per well-known object by the member
resolvers. -/
def object_member_reason : WellKnownObjectKind → String
  | .PathModule => "unsupported property on Node.js path module"
  | .FsModule => "unsupported property on Node.js fs module"
  | .UrlModule => "unsupported property on Node.js url module"
  | .ChildProcess => "unsupported property on Node.js child_process module"

theorem fs_module_member_hit_table (prop : JsValue) (v : JsValue)
    (h : fs_module_member_hit prop = some v) :
    object_member_table_hit .FsModule prop = true := by
  unfold fs_module_member_hit at h
  cases hw : prop.as_word with
  | none => rw [hw] at h; cases h
  | some w =>
    rw [hw] at h
    have h' : (if fs_read_methods.contains w = true
        then some (JsValue.WellKnownFunction (.FsReadMethod w))
        else if w = "promises"
          then some (JsValue.WellKnownObject .FsModule)
          else none) = some v := h
    unfold object_member_table_hit
    rw [hw]
    show (fs_read_methods.contains w || (w == "promises")) = true
    by_cases hc : fs_read_methods.contains w = true
    · rw [hc]; rfl
    · rw [if_neg hc] at h'
      by_cases hp : w = "promises"
      · rw [hp]; rfl
      · rw [if_neg hp] at h'; cases h'

/-- C9: `require.resolve` resolves to the `RequireResolve` marker,
`fs.promises` resolves back to the fs-module object marker, and every
property missing from the relevant member table resolves to `Unknown`
retaining a reconstructed member expression with the same object marker
and the same property value. -/
theorem member_tables :
    well_known_function_member .Require (strVal "resolve") =
      .WellKnownFunction .RequireResolve ∧
    well_known_object_member .FsModule (strVal "promises") =
      .WellKnownObject .FsModule ∧
    (∀ kind prop, function_member_table_hit kind prop = false →
      well_known_function_member kind prop =
        .Unknown (some (.Member (.WellKnownFunction kind) prop))
          "unsupported property on function") ∧
    (∀ kind prop, object_member_table_hit kind prop = false →
      well_known_object_member kind prop =
        .Unknown (some (.Member (.WellKnownObject kind) prop))
          (object_member_reason kind)) := by
  refine ⟨rfl, rfl, fun kind prop h => ?_, fun kind prop h => ?_⟩
  · unfold well_known_function_member
    split
    · simp_all [function_member_table_hit]
    · rfl
  · cases kind with
    | PathModule =>
      show path_module_member prop = _
      unfold path_module_member
      split
      · simp_all [object_member_table_hit]
      · simp_all [object_member_table_hit]
      · rfl
    | FsModule =>
      show fs_module_member prop = _
      unfold fs_module_member
      split
      · rename_i v heq
        exact absurd (fs_module_member_hit_table prop v heq) (by simp [h])
      · rfl
    | UrlModule =>
      show url_module_member prop = _
      unfold url_module_member
      split
      · simp_all [object_member_table_hit]
      · rfl
    | ChildProcess =>
      show child_process_module_member prop = _
      unfold child_process_module_member
      split
      · simp_all [object_member_table_hit]
      · simp_all [object_member_table_hit]
      · simp_all [object_member_table_hit]
      · simp_all [object_member_table_hit]
      · simp_all [object_member_table_hit]
      · rfl

/-- Witness for C9: a property in no table (`"zzz"`) resolves to `Unknown`
wrapping the reconstructed member access, on a well-known function and on
a well-known object. -/
theorem member_tables_witness :
    well_known_function_member .Import (strVal "zzz") =
      .Unknown (some (.Member (.WellKnownFunction .Import) (strVal "zzz")))
        "unsupported property on function" ∧
    well_known_object_member .PathModule (strVal "zzz") =
      .Unknown (some (.Member (.WellKnownObject .PathModule) (strVal "zzz")))
        "unsupported property on Node.js path module" :=
  ⟨member_tables.2.2.1 .Import (strVal "zzz") rfl,
   member_tables.2.2.2 .PathModule (strVal "zzz") rfl⟩
